import Mathlib

/-!
Verification of the Zinc toolchain specification against its source code.

The development shallowly embeds the parts of the repository that the
claims under scrutiny are about:

* the semantic analyzer's scope items, conditional analysis, value
  operators and for-loop lowering (`zinc-compiler`);
* the constraint-generating virtual machine's assert instruction, the
  addition gadget, the Blake2s library call and the debug-marker
  instructions (`zinc-vm`);
* the reference interpreter's loop statement (`interpreter`).

Pure functions of the source become Lean functions; stateful code is
modelled by explicit state passing; fallible code returns `Except`.
Definitions translated from files that are not present in the source
tree (only their tests, declarations or callers are) carry a doc
comment starting with `Modelled from the spec:`.
-/

namespace Zinc

/-- Source position `(line, column)`; the file component is elided since
every claim under consideration stays within a single file, matching
`Location::new(line, column)` used by the tests. -/
structure Location where
  line : Nat
  column : Nat
deriving DecidableEq, Repr

/-! ### Semantic types

Mirrors `zinc-compiler/src/semantic/element/type/mod.rs` as used by the
scope items, values and conditional analysis. The tuple element list is
a dedicated mutual inductive so that all recursion stays structural.
Structure and enumeration types carry their identifier and globally
unique id; the attached implementation scopes are irrelevant to the
claims and are elided. -/

mutual

inductive SemType where
  | Unit : SemType
  | Boolean : SemType
  | IntegerUnsigned : Nat → SemType
  | IntegerSigned : Nat → SemType
  | Field : SemType
  | Array : SemType → Nat → SemType
  | Tuple : SemTypeList → SemType
  | Structure : String → Nat → SemType
  | Enumeration : String → Nat → Nat → SemType
  | Function : String → Nat → SemType

inductive SemTypeList where
  | nil : SemTypeList
  | cons : SemType → SemTypeList → SemTypeList

end

mutual

/-- Rendering of a semantic type to its diagnostic string, following the
`Display` implementation of the semantic `Type`: scalar types print as
their keyword, aggregates recurse, named types print their identifier. -/
def SemType.toTypeString : SemType → String
  | .Unit => "()"
  | .Boolean => "bool"
  | .IntegerUnsigned n => "u" ++ toString n
  | .IntegerSigned n => "i" ++ toString n
  | .Field => "field"
  | .Array t n => "[" ++ t.toTypeString ++ "; " ++ toString n ++ "]"
  | .Tuple ts => "(" ++ SemTypeList.toTypeStrings ts ++ ")"
  | .Structure name _ => name
  | .Enumeration name _ _ => name
  | .Function name _ => "fn " ++ name

/-- Comma-separated rendering of a tuple's element types. -/
def SemTypeList.toTypeStrings : SemTypeList → String
  | .nil => ""
  | .cons t .nil => t.toTypeString
  | .cons t rest => t.toTypeString ++ ", " ++ SemTypeList.toTypeStrings rest

end

mutual

/-- Structural equality of semantic types, the shallow counterpart of the
derived `PartialEq` on the semantic `Type`. -/
def SemType.beq : SemType → SemType → Bool
  | .Unit, .Unit => true
  | .Boolean, .Boolean => true
  | .IntegerUnsigned n₁, .IntegerUnsigned n₂ => n₁ == n₂
  | .IntegerSigned n₁, .IntegerSigned n₂ => n₁ == n₂
  | .Field, .Field => true
  | .Array t₁ n₁, .Array t₂ n₂ => t₁.beq t₂ && n₁ == n₂
  | .Tuple ts₁, .Tuple ts₂ => SemTypeList.beq ts₁ ts₂
  | .Structure name₁ id₁, .Structure name₂ id₂ => name₁ == name₂ && id₁ == id₂
  | .Enumeration name₁ id₁ b₁, .Enumeration name₂ id₂ b₂ =>
      name₁ == name₂ && id₁ == id₂ && b₁ == b₂
  | .Function name₁ id₁, .Function name₂ id₂ => name₁ == name₂ && id₁ == id₂
  | _, _ => false

/-- Pointwise structural equality of tuple element lists. -/
def SemTypeList.beq : SemTypeList → SemTypeList → Bool
  | .nil, .nil => true
  | .cons t₁ rest₁, .cons t₂ rest₂ => t₁.beq t₂ && SemTypeList.beq rest₁ rest₂
  | _, _ => false

end

/-! ### Scope items (`zinc-compiler/src/semantic/scope/item/mod.rs`) -/

/-- Scope item, mirroring `Item` of `semantic/scope/item/mod.rs`: a name
in a scope maps to a variable, a constant, a static, a type, or a
module. The payloads irrelevant to namespace membership (the constant
value, the module's scope contents) are reduced to the data the claims
observe. -/
inductive Item where
  | Variable : Bool → SemType → Item
  | Constant : SemType → Item
  | Static : SemType → Item
  | Type : SemType → Item
  | Module : Nat → Item

/-- Direct translation of `Item::is_namespace` of
`semantic/scope/item/mod.rs`: variables, constants and statics are not
namespaces; a type item is a namespace unless it is an enumeration; a
module is a namespace. No caller of this method appears under src/, and
the `error_item_undeclared_enum_variant` scope test shows that path
resolution nonetheless enters an enumeration's scope (a missing variant
is `ItemUndeclared`, not `ItemIsNotNamespace`), so this method is not
the namespace notion path resolution applies. -/
def Item.is_namespace : Item → Bool
  | .Variable _ _ => false
  | .Constant _ => false
  | .Static _ => false
  | .Type (SemType.Enumeration _ _ _) => false
  | .Type _ => true
  | .Module _ => true

/-- Scope error, mirroring `semantic/scope/error.rs`. -/
inductive ScopeError where
  | ItemUndeclared : Location → String → ScopeError
  | ItemRedeclared : Location → String → Option Location → ScopeError
  | ItemIsNotNamespace : Location → String → ScopeError
deriving DecidableEq

/-- Modelled from the spec: whether an item introduces a namespace for
path resolution — "Modules, structures, and enumerations introduce
namespaces; other items do not" (`Scope::resolve_path` of
`semantic/scope/mod.rs` is not under src/). The in-src scope tests pin
both sides: `error_item_is_not_namespace` shows a constant is not a
namespace, and `error_item_undeclared_enum_variant` shows resolution
walks into an enumeration's scope. -/
def Item.introducesNamespace : Item → Bool
  | .Module _ => true
  | .Type (SemType.Structure _ _) => true
  | .Type (SemType.Enumeration _ _ _) => true
  | _ => false

/-- Modelled from the spec: one step of path resolution
(`Scope::resolve_path` of `semantic/scope/mod.rs` is not under src/).
Resolving the component `member` against an already-resolved `item`
whose namespace scope maps member names to items: an item that
introduces no namespace reports `ItemIsNotNamespace` carrying the
item's name and location; a namespace item is entered, and a member
missing from its scope reports `ItemUndeclared` at the component's
location — the shapes fixed by the `error_item_is_not_namespace` and
`error_item_undeclared_enum_variant` scope tests. -/
def resolveInNamespace (item : Item) (itemName : String) (itemLocation : Location)
    (scope : List (String × Item)) (member : String) (memberLocation : Location) :
    Except ScopeError Item :=
  if item.introducesNamespace then
    match scope.find? (fun entry => entry.1 == member) with
    | some entry => Except.ok entry.2
    | none => Except.error (ScopeError.ItemUndeclared memberLocation member)
  else Except.error (ScopeError.ItemIsNotNamespace itemLocation itemName)

/-! ### Scope declaration (`zinc-compiler/src/semantic/scope`)

The scope chain is a list of frames, innermost first; each frame maps
names to the item and the location of its declaration. -/

/-- One scope's symbol table: declared names with their declaration
location and item. -/
def ScopeFrame : Type := List (String × Location × Item)

/-- Name lookup walking the scope chain from the innermost frame
outwards, as `Scope::resolve_item` does through parent links. -/
def resolveChain : List ScopeFrame → String → Option (Location × Item)
  | [], _ => none
  | frame :: outer, name =>
      match frame.find? (fun entry => entry.1 == name) with
      | some entry => some entry.2
      | none => resolveChain outer name

/-- Reconstructed from the scope tests (`semantic/scope/mod.rs` is not under
src/): declaring a name first resolves it through the whole visible scope
chain and fails with `ItemRedeclared`, referencing the earlier declaration's
location, whenever the name is already visible — the behaviour fixed by the
`error_item_redeclared` test, which expects the error for a redeclaration in
a nested inner scope. On success the name is added to the innermost frame. -/
def declareItem (chain : List ScopeFrame) (name : String) (location : Location)
    (item : Item) : Except ScopeError (List ScopeFrame) :=
  match resolveChain chain name with
  | some previous =>
      Except.error (ScopeError.ItemRedeclared location name (some previous.1))
  | none =>
      match chain with
      | [] => Except.ok ([((name, location, item))] :: [])
      | frame :: outer => Except.ok (((name, location, item) :: frame) :: outer)

/-! ### Semantic errors used by the claims -/

/-- Semantic analyzer errors, reduced to the variants the claims exercise;
shapes follow `semantic/error.rs` as pinned down by the conditional and
scope tests. -/
inductive SemanticError where
  | ConditionalExpectedBooleanCondition : Location → String → SemanticError
  | ConditionalBranchTypesMismatch : Location → String → String → Location → SemanticError
  | LoopBoundsExpectedConstantRangeExpression : Location → String → SemanticError
  | LoopWhileExpectedBooleanCondition : Location → String → SemanticError
  | IntegerTooLarge : Location → Int → Nat → SemanticError
  | Scope : ScopeError → SemanticError

/-! ### Conditional expressions (`semantic/analyzer/expression/conditional`) -/

/-- An already-analyzed subexpression of a conditional: its semantic type
and its source location. -/
structure TypedBranch where
  type : SemType
  location : Location

/-- Conditional expression after its parts have been analyzed. -/
structure CondExpr where
  condition : TypedBranch
  main : TypedBranch
  elseBranch : Option TypedBranch

/-- Modelled from the spec: conditional type checking (the conditional
analyzer `semantic/analyzer/expression/conditional/mod.rs` is not under
src/; its tests are). The condition must be boolean, otherwise
`ConditionalExpectedBooleanCondition` at the condition's location carrying
the found type; with an else branch the two branch types must coincide,
otherwise `ConditionalBranchTypesMismatch` at the main branch's location,
carrying the main type as expected, the else type as found, and the else
branch's location as reference; a missing else branch demands the unit
type for the main branch. -/
def analyzeConditional (e : CondExpr) : Except SemanticError SemType :=
  if e.condition.type.beq SemType.Boolean then
    match e.elseBranch with
    | some elseBranch =>
        if e.main.type.beq elseBranch.type then Except.ok e.main.type
        else
          Except.error (SemanticError.ConditionalBranchTypesMismatch
            e.main.location e.main.type.toTypeString elseBranch.type.toTypeString
            elseBranch.location)
    | none =>
        if e.main.type.beq SemType.Unit then Except.ok SemType.Unit
        else
          Except.error (SemanticError.ConditionalBranchTypesMismatch
            e.main.location SemType.Unit.toTypeString e.main.type.toTypeString
            e.main.location)
  else
    Except.error (SemanticError.ConditionalExpectedBooleanCondition
      e.condition.location e.condition.type.toTypeString)

/-- Modelled from the spec: the semantic type inferred for an unsigned
decimal integer literal — the smallest bitlength from the byte-stepped
ladder `8, 16, …` that the literal's magnitude fits into, so `42 : u8`. -/
def inferIntegerLiteral (value : Nat) : SemType :=
  SemType.IntegerUnsigned (8 * (Nat.log2 value / 8 + 1))

/-! ### Value elements (`zinc-compiler/src/semantic/element/value/mod.rs`) -/

/-- The field scalar bitlength, `crate::BITLENGTH_FIELD`. -/
def BITLENGTH_FIELD : Nat := 254

/-- Type-only runtime value, mirroring `Value` of
`semantic/element/value/mod.rs`: the integer value keeps only signedness
and bitlength (`element/value/integer.rs`), aggregates keep the data their
`r#type()` is rebuilt from. -/
inductive Value where
  | Unit : Value
  | Boolean : Value
  | Integer : Bool → Nat → Value
  | ArrayV : SemType → Nat → Value
  | TupleV : SemTypeList → Value
  | StructureV : String → List (String × SemType) → Value

/-- The semantic type of a value, following `Value::r#type`: an integer
with the field bitlength is the field type, aggregates rebuild their
type from the stored data (the structure's unique id is not kept by the
value and is irrelevant to its display string). -/
def Value.type : Value → SemType
  | .Unit => SemType.Unit
  | .Boolean => SemType.Boolean
  | .Integer isSigned bitlength =>
      if bitlength = BITLENGTH_FIELD then SemType.Field
      else if isSigned then SemType.IntegerSigned bitlength
      else SemType.IntegerUnsigned bitlength
  | .ArrayV elementType size => SemType.Array elementType size
  | .TupleV types => SemType.Tuple types
  | .StructureV identifier _ => SemType.Structure identifier 0

/-- Diagnostic string of a value's type, `value.r#type().to_string()`. -/
def Value.typeString (v : Value) : String :=
  v.type.toTypeString

/-- Integer-element error, mirroring the equality errors of
`semantic/element/value/integer.rs` (not under src/): the two operand
type strings are carried. -/
inductive IntegerValueError where
  | TypesMismatchEquals : String → String → IntegerValueError
  | TypesMismatchNotEquals : String → String → IntegerValueError

/-- Value-operator error, reduced to the equality-operator variants of
`semantic/element/value/error.rs`; each carries the found operand's
type string. -/
inductive ValueError where
  | OperatorEqualsSecondOperandExpectedUnit : String → ValueError
  | OperatorEqualsSecondOperandExpectedBoolean : String → ValueError
  | OperatorEqualsSecondOperandExpectedInteger : String → ValueError
  | OperatorEqualsFirstOperandExpectedPrimitiveType : String → ValueError
  | OperatorNotEqualsSecondOperandExpectedUnit : String → ValueError
  | OperatorNotEqualsSecondOperandExpectedBoolean : String → ValueError
  | OperatorNotEqualsSecondOperandExpectedInteger : String → ValueError
  | OperatorNotEqualsFirstOperandExpectedPrimitiveType : String → ValueError
  | Integer : IntegerValueError → ValueError

/-- Modelled from the spec: `Integer::equals` of the integer value element
(not under src/) — both operands must be integers of the same signedness
and bitlength, otherwise a types-mismatch error carrying both type
strings. -/
def integerEquals (s₁ : Bool) (b₁ : Nat) (s₂ : Bool) (b₂ : Nat) :
    Except IntegerValueError Unit :=
  if s₁ = s₂ ∧ b₁ = b₂ then Except.ok ()
  else
    Except.error (IntegerValueError.TypesMismatchEquals
      ((Value.Integer s₁ b₁).typeString) ((Value.Integer s₂ b₂).typeString))

/-- Modelled from the spec: `Integer::not_equals`, the same type check as
`Integer::equals` with its own error variant. -/
def integerNotEquals (s₁ : Bool) (b₁ : Nat) (s₂ : Bool) (b₂ : Nat) :
    Except IntegerValueError Unit :=
  if s₁ = s₂ ∧ b₁ = b₂ then Except.ok ()
  else
    Except.error (IntegerValueError.TypesMismatchNotEquals
      ((Value.Integer s₁ b₁).typeString) ((Value.Integer s₂ b₂).typeString))

/-- Direct translation of `Value::equals`: unit with unit, boolean with
boolean, integer with integer (delegated to the integer element) succeed
with a boolean result; every other combination is an operand-mismatch
error carrying the offending operand's type string. -/
def Value.equals : Value → Value → Except ValueError Value
  | .Unit, .Unit => Except.ok Value.Boolean
  | .Unit, v₂ =>
      Except.error (ValueError.OperatorEqualsSecondOperandExpectedUnit v₂.typeString)
  | .Boolean, .Boolean => Except.ok Value.Boolean
  | .Boolean, v₂ =>
      Except.error (ValueError.OperatorEqualsSecondOperandExpectedBoolean v₂.typeString)
  | .Integer s₁ b₁, .Integer s₂ b₂ =>
      match integerEquals s₁ b₁ s₂ b₂ with
      | Except.ok _ => Except.ok Value.Boolean
      | Except.error e => Except.error (ValueError.Integer e)
  | .Integer _ _, v₂ =>
      Except.error (ValueError.OperatorEqualsSecondOperandExpectedInteger v₂.typeString)
  | v₁, _ =>
      Except.error
        (ValueError.OperatorEqualsFirstOperandExpectedPrimitiveType v₁.typeString)

/-- Direct translation of `Value::not_equals`, symmetric to `Value.equals`
with the not-equals error variants. -/
def Value.not_equals : Value → Value → Except ValueError Value
  | .Unit, .Unit => Except.ok Value.Boolean
  | .Unit, v₂ =>
      Except.error (ValueError.OperatorNotEqualsSecondOperandExpectedUnit v₂.typeString)
  | .Boolean, .Boolean => Except.ok Value.Boolean
  | .Boolean, v₂ =>
      Except.error (ValueError.OperatorNotEqualsSecondOperandExpectedBoolean v₂.typeString)
  | .Integer s₁ b₁, .Integer s₂ b₂ =>
      match integerNotEquals s₁ b₁ s₂ b₂ with
      | Except.ok _ => Except.ok Value.Boolean
      | Except.error e => Except.error (ValueError.Integer e)
  | .Integer _ _, v₂ =>
      Except.error (ValueError.OperatorNotEqualsSecondOperandExpectedInteger v₂.typeString)
  | v₁, _ =>
      Except.error
        (ValueError.OperatorNotEqualsFirstOperandExpectedPrimitiveType v₁.typeString)

/-- The success condition of the equality operators as the claim states
it: both operands are the same primitive type — unit with unit, boolean
with boolean, or integer with integer of matching signedness and
bitlength. -/
def Value.samePrimitiveType : Value → Value → Prop
  | .Unit, .Unit => True
  | .Boolean, .Boolean => True
  | .Integer s₁ b₁, .Integer s₂ b₂ => s₁ = s₂ ∧ b₁ = b₂
  | _, _ => False

/-- The error of a failed equality operation names the offending
operand's type: the carried string is the type string of one of the two
operands (for an integer types mismatch, of both). -/
def ValueError.namesOffendingOperand (v₁ v₂ : Value) : ValueError → Prop
  | .OperatorEqualsSecondOperandExpectedUnit s => s = v₂.typeString
  | .OperatorEqualsSecondOperandExpectedBoolean s => s = v₂.typeString
  | .OperatorEqualsSecondOperandExpectedInteger s => s = v₂.typeString
  | .OperatorEqualsFirstOperandExpectedPrimitiveType s => s = v₁.typeString
  | .OperatorNotEqualsSecondOperandExpectedUnit s => s = v₂.typeString
  | .OperatorNotEqualsSecondOperandExpectedBoolean s => s = v₂.typeString
  | .OperatorNotEqualsSecondOperandExpectedInteger s => s = v₂.typeString
  | .OperatorNotEqualsFirstOperandExpectedPrimitiveType s => s = v₁.typeString
  | .Integer (.TypesMismatchEquals s₁ s₂) => s₁ = v₁.typeString ∧ s₂ = v₂.typeString
  | .Integer (.TypesMismatchNotEquals s₁ s₂) => s₁ = v₁.typeString ∧ s₂ = v₂.typeString

/-! ### For-loop analysis (`semantic/analyzer/statement/mod.rs`, `Analyzer::r#for`) -/

/-- Constant range, `Constant::Range` / `Constant::RangeInclusive`
payload: folded bounds with the element type's signedness and
bitlength. -/
structure RangeConstant where
  start : Int
  stop : Int
  isSigned : Bool
  bitlength : Nat

/-- Compile-time constant, reduced to the variants `Analyzer::r#for`
distinguishes. -/
inductive ConstantE where
  | IntegerC : Int → Bool → Nat → ConstantE
  | BooleanC : Bool → ConstantE
  | UnitC : ConstantE
  | RangeC : RangeConstant → ConstantE
  | RangeInclusiveC : RangeConstant → ConstantE

/-- Semantic element, reduced to the alternatives `Analyzer::r#for`
matches on: a constant, or anything else (a runtime value, a type, …). -/
inductive ElementE where
  | ConstantEl : ConstantE → ElementE
  | ValueEl : Value → ElementE
  | TypeEl : SemType → ElementE

/-- Diagnostic string of an element, standing in for the `Display`
implementation the analyzer embeds into its errors. -/
def ElementE.display : ElementE → String
  | .ConstantEl (.IntegerC v _ _) => toString v
  | .ConstantEl (.BooleanC b) => toString b
  | .ConstantEl .UnitC => "()"
  | .ConstantEl (.RangeC r) => toString r.start ++ " .. " ++ toString r.stop
  | .ConstantEl (.RangeInclusiveC r) => toString r.start ++ " ..= " ++ toString r.stop
  | .ValueEl v => v.typeString
  | .TypeEl t => t.toTypeString

/-- The IR the analyzer emits for a for-loop,
`GeneratorForLoopStatement`: the normalized start bound, the
pre-computed iteration count, the reversal flag, and the index type.
The loop body and optional while condition are analyzed separately and
are not part of this claim. -/
structure GeneratorForLoop where
  rangeStart : Int
  iterationsCount : Nat
  isReversed : Bool
  indexIsSigned : Bool
  indexBitlength : Nat
deriving DecidableEq

/-- The `usize::MAX` bound of `BigInt::to_usize`. -/
def USIZE_LIMIT : Nat := 2 ^ 64

/-- Iteration-count arithmetic of `Analyzer::r#for` on a folded constant
range, translated statement by statement: `is_reversed` is start > end;
the bounds are then normalized through the shadowing `min`/`max` dance of
the source; the difference is converted to `usize` (failing with the
integer-too-large error when it does not fit) and incremented for an
inclusive range. -/
def forLoopFromRange (r : RangeConstant) (isInclusive : Bool) (boundsLocation : Location) :
    Except SemanticError GeneratorForLoop :=
  let isReversed := r.start > r.stop
  let rangeStart := if isReversed then max r.start r.stop else min r.start r.stop
  let rangeEnd := if isReversed then min rangeStart r.stop else max rangeStart r.stop
  let iterations : Int := if isReversed then rangeStart - rangeEnd else rangeEnd - rangeStart
  if 0 ≤ iterations ∧ iterations < (USIZE_LIMIT : Int) then
    let count := iterations.toNat
    Except.ok
      { rangeStart := rangeStart
        iterationsCount := if isInclusive then count + 1 else count
        isReversed := isReversed
        indexIsSigned := r.isSigned
        indexBitlength := r.bitlength }
  else
    Except.error (SemanticError.IntegerTooLarge boundsLocation iterations r.bitlength)

/-- Bounds dispatch of `Analyzer::r#for`: only a constant `Range` or
`RangeInclusive` is accepted; any other element reports
`LoopBoundsExpectedConstantRangeExpression` at the bounds expression's
location with the element's display string. -/
def analyzeForBounds (bounds : ElementE) (boundsLocation : Location) :
    Except SemanticError GeneratorForLoop :=
  match bounds with
  | ElementE.ConstantEl (ConstantE.RangeInclusiveC r) =>
      forLoopFromRange r true boundsLocation
  | ElementE.ConstantEl (ConstantE.RangeC r) =>
      forLoopFromRange r false boundsLocation
  | element =>
      Except.error (SemanticError.LoopBoundsExpectedConstantRangeExpression
        boundsLocation element.display)

/-- Whether an element is a constant range, the guard of the first two
arms of `analyzeForBounds`. -/
def ElementE.isConstantRange : ElementE → Bool
  | .ConstantEl (.RangeC _) => true
  | .ConstantEl (.RangeInclusiveC _) => true
  | _ => false

end Zinc

namespace ZincVM

/-! ### The constraint-generating virtual machine (`zinc-vm`)

The VM is embedded at the witness level: a `Scalar` carries its optional
witness value over the engine's field and its declared scalar type; the
constraint system is the list of enforced rank-1 constraints, each
recorded through the witness values of its three linear combinations.
Setup-mode execution (no witness) is the `none` value. -/

/-- Scalar type of the bytecode (`zinc_bytecode::ScalarType`): field,
boolean, or a signed/unsigned integer of a declared bitlength. -/
inductive ScalarType where
  | Field : ScalarType
  | Boolean : ScalarType
  | Integer : Bool → Nat → ScalarType
deriving DecidableEq, Repr

/-- A wire value: the optional witness value and the declared type
(`zinc-vm/src/gadgets/scalar`). The linear-combination representation is
collapsed to its witness value. -/
structure Scalar (F : Type) where
  value : Option F
  scalarType : ScalarType
deriving DecidableEq

/-- Evaluation-stack cell (`Cell = Value(Scalar) | Address(usize)`). -/
inductive Cell (F : Type) where
  | Value : Scalar F → Cell F
  | Address : Nat → Cell F
deriving DecidableEq

/-- One enforced rank-1 constraint `a · b = c`, recorded through the
witness values of its three linear combinations (`none` in setup mode). -/
structure Constr (F : Type) where
  a : Option F
  b : Option F
  c : Option F
deriving DecidableEq

/-- A recorded constraint holds on the witness: whenever all three sides
carry values, `a · b = c`. -/
def Constr.satisfied {F : Type} [Mul F] [DecidableEq F] (k : Constr F) : Prop :=
  match k.a, k.b, k.c with
  | some a, some b, some c => a * b = c
  | _, _, _ => True

/-- Malformed-bytecode errors (`zinc-vm/src/error.rs`), reduced to the
variants the claims exercise. -/
inductive MalformedBytecodeError where
  | InvalidArguments : String → MalformedBytecodeError
  | StackUnderflow : MalformedBytecodeError
deriving DecidableEq

/-- VM runtime errors (`zinc-vm/src/error.rs`), reduced to the variants
the claims exercise. -/
inductive RuntimeError where
  | AssertionError : String → RuntimeError
  | MalformedBytecode : MalformedBytecodeError → RuntimeError
  | TypeErrorE : String → RuntimeError
  | ValueOverflow : RuntimeError
  | SynthesisError : RuntimeError
deriving DecidableEq

/-- VM source location (`zinc-vm/src/core/location.rs`), the shape
visible from the marker instructions: every component is optional. -/
structure VMLocation where
  file : Option String
  function : Option String
  line : Option Nat
  column : Option Nat
deriving DecidableEq

/-- Execution state of the VM (`zinc-vm/src/core/execution_state`),
reduced to the components the claims observe: the evaluation stack, the
data stack, the condition stack of branch selectors, the recorded
constraints, and the current location. -/
structure ExecutionState (F : Type) where
  evaluationStack : List (Cell F)
  dataStack : List (Option (Scalar F))
  conditionStack : List (Scalar F)
  constraints : List (Constr F)
  location : VMLocation
deriving DecidableEq

/-- Pop from the evaluation stack (`vm.pop()`); an empty stack is a
stack underflow. -/
def pop {F : Type} (stack : List (Cell F)) :
    Except RuntimeError (Cell F × List (Cell F)) :=
  match stack with
  | [] => Except.error (RuntimeError.MalformedBytecode MalformedBytecodeError.StackUnderflow)
  | cell :: rest => Except.ok (cell, rest)

/-- Turn a cell into a scalar value (`Cell::try_into_value`); an address
cell is a type error. -/
def Cell.try_into_value {F : Type} : Cell F → Except RuntimeError (Scalar F)
  | .Value s => Except.ok s
  | .Address _ => Except.error (RuntimeError.TypeErrorE "expected value, found address")

/-- Top selector of the condition stack (`vm.condition_top()`). -/
def conditionTop {F : Type} (conditionStack : List (Scalar F)) :
    Except RuntimeError (Scalar F) :=
  match conditionStack with
  | [] => Except.error (RuntimeError.MalformedBytecode MalformedBytecodeError.StackUnderflow)
  | top :: _ => Except.ok top

/-! ### Logical gadgets and the assert gadget -/

/-- Modelled from the spec: the boolean `not` gadget
(`gadgets/logical/not.rs` is not under src/) — on the witness a boolean
scalar `x` becomes `1 - x`; the result is boolean-typed. -/
def gadgetNot {F : Type} [Field F] (s : Scalar F) : Scalar F :=
  { value := s.value.map (fun v => 1 - v), scalarType := ScalarType.Boolean }

/-- Modelled from the spec: the boolean `or` gadget
(`gadgets/logical/or.rs` is not under src/) — on the witness two boolean
scalars combine to `x + y - x·y`, the arithmetization of disjunction;
the result is boolean-typed. The witness is absent whenever either
operand's witness is absent. -/
def gadgetOr {F : Type} [Field F] (x y : Scalar F) : Scalar F :=
  { value :=
      match x.value, y.value with
      | some a, some b => some (a + b - a * b)
      | _, _ => none
    scalarType := ScalarType.Boolean }

/-- Direct translation of `gadgets::assert::assert`
(`zinc-vm/src/gadgets/assert.rs`): if the element's witness value is
literally zero the gadget returns `AssertionError` with the message (or
`"<no message>"`) before anything is allocated or enforced; otherwise it
allocates the inverse witness `x⁻¹` (zero when no inverse exists) and
enforces `x · x⁻¹ = 1`. -/
def gadgetAssert {F : Type} [Field F] [DecidableEq F] (cs : List (Constr F))
    (element : Scalar F) (message : Option String) :
    Except RuntimeError (List (Constr F)) :=
  match element.value with
  | some v =>
      if v = 0 then
        Except.error (RuntimeError.AssertionError (message.getD "<no message>"))
      else
        Except.ok (cs ++ [{ a := some v, b := some v⁻¹, c := some 1 }])
  | none =>
      Except.ok (cs ++ [{ a := none, b := none, c := some 1 }])

/-- Direct translation of the `Assert` instruction
(`zinc-vm/src/instructions/assert.rs`): pop a value, read the top
selector of the condition stack, build `value ∨ ¬selector` with the
`not` and `or` gadgets, and hand the combined condition to the assert
gadget. -/
def executeAssert {F : Type} [Field F] [DecidableEq F] (message : Option String)
    (s : ExecutionState F) : Except RuntimeError (ExecutionState F) :=
  match pop s.evaluationStack with
  | Except.error e => Except.error e
  | Except.ok (cell, rest) =>
    match cell.try_into_value with
    | Except.error e => Except.error e
    | Except.ok value =>
      match conditionTop s.conditionStack with
      | Except.error e => Except.error e
      | Except.ok condition =>
        let notC := gadgetNot condition
        let combined := gadgetOr value notC
        match gadgetAssert s.constraints combined message with
        | Except.error e => Except.error e
        | Except.ok constraints =>
            Except.ok { s with evaluationStack := rest, constraints := constraints }

/-! ### The addition gadget (`zinc-vm/src/gadgets/arithmetic/add.rs`) -/

/-- Direct translation of `gadgets::arithmetic::add::add`: allocate the
sum of the two witness values, enforce `(left + right) · 1 = sum`, and
return the allocated scalar as an unchecked `Field`-typed scalar — the
gadget itself performs no bit decomposition and does not propagate the
operands' integer type. -/
def gadgetAdd {F : Type} [Field F] (cs : List (Constr F)) (left right : Scalar F) :
    List (Constr F) × Scalar F :=
  let value : Option F :=
    match left.value, right.value with
    | some a, some b => some (a + b)
    | _, _ => none
  (cs ++ [{ a := value, b := some 1, c := value }],
   { value := value, scalarType := ScalarType.Field })

/-- Little-endian bit decomposition of a natural number into exactly
`n` bits (each `0` or `1`). -/
def bitsOfNat : Nat → Nat → List Nat
  | 0, _ => []
  | n + 1, v => (v % 2) :: bitsOfNat n (v / 2)

/-- Recomposition of a little-endian bit list, `Σ bits i · 2^i`. -/
def recomposeBits : List Nat → Nat :=
  List.foldr (fun b acc => b + 2 * acc) 0

/-- The two's-complement offset of a scalar type: a signed `n`-bit value
`v` is decomposed as the `n`-bit unsigned value `v + 2^(n-1)`; other
types are decomposed as they are. -/
def typeOffset (st : ScalarType) (v : Int) : Int :=
  match st with
  | .Integer true n => v + 2 ^ (n - 1)
  | _ => v

/-- Modelled from the spec: the bounded-integer type check applied by
the arithmetic instruction handlers after each gadget (the handlers
under `zinc-vm/src/instructions/operators/arithmetic` are not under
src/) — the result of an operation on a `uN`/`iN` type is bit-decomposed
to the declared bitlength `N` with each bit constrained boolean and the
recomposition enforced, and the scalar is re-tagged with the bounded
type; a witness outside the representable range is a value overflow. -/
def typeCheck (st : ScalarType) (witness : Int) :
    Except RuntimeError (List Nat) :=
  match st with
  | .Integer _ n =>
      let offset := typeOffset st witness
      if 0 ≤ offset ∧ offset < (2 ^ n : Int) then
        Except.ok (bitsOfNat n offset.toNat)
      else
        Except.error RuntimeError.ValueOverflow
  | _ => Except.ok []

/-- Modelled from the spec: the complete `Add` instruction on bounded
integer operands — run the addition gadget on the operands' witness
integers (injected into the field), then apply the bounded-type check to
the integer sum, record the boolean-bit constraints `bit · (1 - bit) = 0`
and the recomposition constraint, and push the result re-tagged with the
operands' type. -/
def addInstruction (st : ScalarType) (cs : List (Constr ℚ)) (l r : Int) :
    Except RuntimeError (List (Constr ℚ) × Scalar ℚ × List Nat) :=
  let leftScalar : Scalar ℚ := { value := some (l : ℚ), scalarType := st }
  let rightScalar : Scalar ℚ := { value := some (r : ℚ), scalarType := st }
  let (cs₁, sum) := gadgetAdd cs leftScalar rightScalar
  match typeCheck st (l + r) with
  | Except.error e => Except.error e
  | Except.ok bits =>
      let bitConstraints : List (Constr ℚ) :=
        bits.map (fun (bit : Nat) =>
          { a := some (bit : ℚ), b := some (1 - (bit : ℚ)), c := some 0 })
      let recomposition : Constr ℚ :=
        { a := some (recomposeBits bits : ℚ), b := some 1,
          c := some ((typeOffset st (l + r) : Int) : ℚ) }
      Except.ok (cs₁ ++ bitConstraints ++ [recomposition],
        { value := sum.value, scalarType := st }, bits)

/-! ### Marker instructions (`zinc-vm/src/instructions/markers.rs`) -/

/-- Direct translation of `FileMarker::execute`: the whole location is
replaced — the file is set and function, line and column are reset to
`none`. -/
def executeFileMarker {F : Type} (file : String) (s : ExecutionState F) :
    Except RuntimeError (ExecutionState F) :=
  Except.ok { s with location :=
    { file := some file, function := none, line := none, column := none } }

/-- Direct translation of `FunctionMarker::execute`: only the function
component of the location is updated. -/
def executeFunctionMarker {F : Type} (functionName : String) (s : ExecutionState F) :
    Except RuntimeError (ExecutionState F) :=
  Except.ok { s with location := { s.location with function := some functionName } }

/-- Direct translation of `LineMarker::execute`: only the line component
of the location is updated. -/
def executeLineMarker {F : Type} (line : Nat) (s : ExecutionState F) :
    Except RuntimeError (ExecutionState F) :=
  Except.ok { s with location := { s.location with line := some line } }

/-- Direct translation of `ColumnMarker::execute`: only the column
component of the location is updated. -/
def executeColumnMarker {F : Type} (column : Nat) (s : ExecutionState F) :
    Except RuntimeError (ExecutionState F) :=
  Except.ok { s with location := { s.location with column := some column } }

/-! ### The Blake2s library call
(`zinc-vm/src/instructions/call_library/crypto/blake2s.rs`) -/

/-- The Blake2s library-call gadget: the popped message length in
bits. -/
structure Blake2s where
  messageLength : Nat
deriving DecidableEq

/-- Direct translation of `Blake2s::new`: the message length must be a
multiple of 8 bits, otherwise construction fails with a
malformed-bytecode invalid-arguments error carrying the offending
length. -/
def Blake2s.new (messageLength : Nat) : Except RuntimeError Blake2s :=
  if messageLength % 8 = 0 then Except.ok { messageLength := messageLength }
  else
    Except.error (RuntimeError.MalformedBytecode (MalformedBytecodeError.InvalidArguments
      ("message length for blake2s must be a multiple of 8, got " ++ toString messageLength)))

/-- Witness view of `Scalar::to_boolean`: a boolean-typed scalar with a
witness becomes the truth of its value being nonzero; a scalar of any
other type is a type error. -/
def Scalar.to_boolean {F : Type} [Field F] [DecidableEq F] (s : Scalar F) :
    Except RuntimeError Bool :=
  match s.scalarType with
  | .Boolean =>
      match s.value with
      | some v => Except.ok (if v = 0 then false else true)
      | none => Except.error RuntimeError.SynthesisError
  | _ => Except.error (RuntimeError.TypeErrorE "expected boolean")

/-- Witness view of `Scalar::from_boolean`: a boolean-typed scalar with
value `1` for true and `0` for false. -/
def Scalar.from_boolean {F : Type} [Field F] (b : Bool) : Scalar F :=
  { value := some (if b then 1 else 0), scalarType := ScalarType.Boolean }

/-- The pop loop of the Blake2s call: pop `n` cells, convert each to a
boolean, and collect the bits in pop order. -/
def popBits {F : Type} [Field F] [DecidableEq F] (n : Nat) (stack : List (Cell F)) :
    Except RuntimeError (List Bool × List (Cell F)) :=
  match n with
  | 0 => Except.ok ([], stack)
  | n + 1 =>
    match pop stack with
    | Except.error e => Except.error e
    | Except.ok (cell, rest) =>
      match cell.try_into_value with
      | Except.error e => Except.error e
      | Except.ok scalar =>
        match scalar.to_boolean with
        | Except.error e => Except.error e
        | Except.ok bit =>
          match popBits n rest with
          | Except.error e => Except.error e
          | Except.ok (bits, remaining) => Except.ok (bit :: bits, remaining)

/-- Direct translation of the `reverse_byte_bits` helper: the bit order
within each 8-bit chunk of the list is reversed. -/
def reverseByteBits : List Bool → List Bool
  | b₀ :: b₁ :: b₂ :: b₃ :: b₄ :: b₅ :: b₆ :: b₇ :: rest =>
      b₇ :: b₆ :: b₅ :: b₄ :: b₃ :: b₂ :: b₁ :: b₀ :: reverseByteBits rest
  | l => l.reverse

/-- Direct translation of the Blake2s `INativeCallable::call`,
parametrized by the in-circuit hash `blake2s` of `franklin_crypto`
(external to this repository): pop `message_length` bits, restore push
order by reversing, reverse the bit order within each byte, hash,
reverse the bit order within each byte of the digest, check the 256-bit
digest length asserted by the source, and push the digest bits as
boolean scalars. -/
def blake2sCall {F : Type} [Field F] [DecidableEq F]
    (hash : List Bool → List Bool) (g : Blake2s) (s : ExecutionState F) :
    Except RuntimeError (ExecutionState F) :=
  match popBits g.messageLength s.evaluationStack with
  | Except.error e => Except.error e
  | Except.ok (popped, rest) =>
    let bits := reverseByteBits popped.reverse
    let digest := reverseByteBits (hash bits)
    if digest.length = 256 then
      Except.ok { s with evaluationStack :=
        (digest.map (fun b => Cell.Value (Scalar.from_boolean b))).reverse ++ rest }
    else Except.error RuntimeError.SynthesisError

end ZincVM

namespace ZincInterp

/-! ### The reference interpreter's loop statement
(`interpreter/src/interpreter.rs`, `Statement::Loop`)

The loop is embedded over an abstract interpreter state `σ`: the while
guard is an evaluation function from the loop index and the state, the
body a state transformer. The index sequence the source's
break/increment logic walks through is supplied as a list, and the body
of each iteration mirrors the source: the guard, when present, is
evaluated at the start of the iteration — a boolean false breaks out of
the loop, a non-boolean value is an error — and only then the block
executes. -/

/-- Interpreter value, reduced to the distinction the loop guard makes:
boolean, or anything else. -/
inductive IValue where
  | VBoolean : Bool → IValue
  | VInteger : Nat → IValue
  | VUnit : IValue
deriving DecidableEq

/-- Interpreter error, reduced to the loop guard error
(`Error::LoopWhileExpectedBooleanExpression`) carrying the offending
value. -/
inductive IError where
  | LoopWhileExpectedBooleanExpression : IValue → IError
deriving DecidableEq

/-- Direct translation of the iteration structure of `Statement::Loop`:
for each index, the while guard (when present) is evaluated first — if
it is a boolean false the loop breaks, returning the current state and
skipping every remaining iteration; if it is not a boolean the loop
fails; otherwise the body runs and the next index follows. -/
def interpLoop {σ : Type} (guard : Option (Nat → σ → IValue)) (body : Nat → σ → σ) :
    List Nat → σ → Except IError σ
  | [], s => Except.ok s
  | index :: rest, s =>
      match guard with
      | none => interpLoop guard body rest (body index s)
      | some g =>
          match g index s with
          | IValue.VBoolean true => interpLoop guard body rest (body index s)
          | IValue.VBoolean false => Except.ok s
          | v => Except.error (IError.LoopWhileExpectedBooleanExpression v)

/-- Sequential application of the loop body to a list of indices, the
state reached after those iterations. -/
def applyBodies {σ : Type} (body : Nat → σ → σ) : List Nat → σ → σ
  | [], s => s
  | index :: rest, s => applyBodies body rest (body index s)

/-- Modelled from the spec: the constraint-generating VM's execution of
the same loop (its `LoopBegin`/`LoopEnd` handling is not under src/) —
every iteration executes; the while guard is conjoined into the branch
selector under which the body runs, so a false guard masks the body's
effects instead of terminating the loop. The returned trace records the
selector of each executed iteration. -/
def vmLoop {σ : Type} (guard : Nat → σ → Bool) (body : Bool → Nat → σ → σ) :
    List Nat → Bool → σ → σ × List Bool
  | [], _, s => (s, [])
  | index :: rest, selector, s =>
      let selector' := selector && guard index s
      let next := vmLoop guard body rest selector' (body selector' index s)
      (next.1, selector' :: next.2)

end ZincInterp

/-! ## Theorems -/

namespace Zinc

/-- Evaluation of the inferred type of the literal `42`. -/
theorem inferIntegerLiteral_42 : inferIntegerLiteral 42 = SemType.IntegerUnsigned 8 := by
  simp [inferIntegerLiteral, Nat.log2]

/-- Evaluation of the inferred type of the literal `1`. -/
theorem inferIntegerLiteral_1 : inferIntegerLiteral 1 = SemType.IntegerUnsigned 8 := by
  simp [inferIntegerLiteral, Nat.log2]

/-- Evaluation of the inferred type of the literal `2`. -/
theorem inferIntegerLiteral_2 : inferIntegerLiteral 2 = SemType.IntegerUnsigned 8 := by
  simp [inferIntegerLiteral, Nat.log2]

/-- C4: compiling `fn main() { if true { 42 } else { false } }` fails with
`ConditionalBranchTypesMismatch { expected: "u8", found: "bool" }` located
at the `42` literal (3:15) and referencing the `false` literal (3:27), and
compiling `fn main() { if 42 { 1 } else { 2 } }` fails with
`ConditionalExpectedBooleanCondition { found: "u8" }` at the condition
(3:8) — the analyzed conditionals of the two programs of
`semantic/analyzer/expression/conditional/tests.rs`, with the literal
types inferred for the integer literals. -/
theorem conditional_error_tests :
    analyzeConditional
      { condition := { type := SemType.Boolean, location := ⟨3, 8⟩ }
        main := { type := inferIntegerLiteral 42, location := ⟨3, 15⟩ }
        elseBranch := some { type := SemType.Boolean, location := ⟨3, 27⟩ } } =
      Except.error
        (SemanticError.ConditionalBranchTypesMismatch ⟨3, 15⟩ "u8" "bool" ⟨3, 27⟩) ∧
    analyzeConditional
      { condition := { type := inferIntegerLiteral 42, location := ⟨3, 8⟩ }
        main := { type := inferIntegerLiteral 1, location := ⟨3, 13⟩ }
        elseBranch := some { type := inferIntegerLiteral 2, location := ⟨3, 24⟩ } } =
      Except.error (SemanticError.ConditionalExpectedBooleanCondition ⟨3, 8⟩ "u8") := by
  rw [inferIntegerLiteral_42, inferIntegerLiteral_1, inferIntegerLiteral_2]
  exact ⟨rfl, rfl⟩

/-- C3: path resolution treats modules, structures and enumerations as
namespaces and no other item kind as a namespace; resolving a path
component into a non-namespace item produces `ItemIsNotNamespace`
carrying the item's name and location, while a namespace item is
entered — in particular an enumeration's scope is walked, a missing
member being `ItemUndeclared` at the component's location. -/
theorem namespace_resolution_spec (item : Item) (itemName : String)
    (itemLocation : Location) (scope : List (String × Item)) (member : String)
    (memberLocation : Location) :
    (item.introducesNamespace = true ↔
      ((∃ id, item = Item.Module id) ∨
        (∃ name id, item = Item.Type (SemType.Structure name id)) ∨
        (∃ name id bitlength, item = Item.Type (SemType.Enumeration name id bitlength)))) ∧
    (resolveInNamespace item itemName itemLocation scope member memberLocation =
        Except.error (ScopeError.ItemIsNotNamespace itemLocation itemName) ↔
      item.introducesNamespace = false) ∧
    (item.introducesNamespace = true →
      scope.find? (fun entry => entry.1 == member) = none →
      resolveInNamespace item itemName itemLocation scope member memberLocation =
        Except.error (ScopeError.ItemUndeclared memberLocation member)) ∧
    (item.introducesNamespace = true →
      ∀ found, scope.find? (fun entry => entry.1 == member) = some found →
        resolveInNamespace item itemName itemLocation scope member memberLocation =
          Except.ok found.2) := by
  refine ⟨?_, ?_, ?_, ?_⟩
  · cases item
    case Variable a b => simp [Item.introducesNamespace]
    case Constant a => simp [Item.introducesNamespace]
    case Static a => simp [Item.introducesNamespace]
    case Module id => simp [Item.introducesNamespace]
    case _ t =>
      cases t <;> simp [Item.introducesNamespace]
  · cases h : item.introducesNamespace
    · simp [resolveInNamespace, h]
    · simp only [resolveInNamespace, h, if_true]
      cases hfind : scope.find? (fun entry => entry.1 == member) <;> simp
  · intro h hfind
    simp [resolveInNamespace, h, hfind]
  · intro h found hfind
    simp [resolveInNamespace, h, hfind]

/-- C3 witness: the two in-src scope-test scenarios — resolving
`NOT_NAMESPACE::UNDEFINED` into a constant produces `ItemIsNotNamespace`
with the constant's name and location, while resolving
`Jabberwocky::Exists` into an enumeration enters its scope and reports
the missing variant as `ItemUndeclared` at the variant's location. -/
theorem namespace_resolution_witness :
    resolveInNamespace (Item.Constant (SemType.IntegerUnsigned 8)) "NOT_NAMESPACE"
        ⟨5, 18⟩ [] "UNDEFINED" ⟨5, 33⟩ =
      Except.error (ScopeError.ItemIsNotNamespace ⟨5, 18⟩ "NOT_NAMESPACE") ∧
    ((Item.Type (SemType.Enumeration "Jabberwocky" 0 8)).introducesNamespace = true ∧
      resolveInNamespace (Item.Type (SemType.Enumeration "Jabberwocky" 0 8)) "Jabberwocky"
          ⟨7, 18⟩ [("Gone", Item.Constant (SemType.Enumeration "Jabberwocky" 0 8))]
          "Exists" ⟨7, 31⟩ =
        Except.error (ScopeError.ItemUndeclared ⟨7, 31⟩ "Exists")) :=
  ⟨(namespace_resolution_spec (Item.Constant (SemType.IntegerUnsigned 8)) "NOT_NAMESPACE"
      ⟨5, 18⟩ [] "UNDEFINED" ⟨5, 33⟩).2.1.mpr rfl,
    rfl,
    (namespace_resolution_spec (Item.Type (SemType.Enumeration "Jabberwocky" 0 8))
      "Jabberwocky" ⟨7, 18⟩
      [("Gone", Item.Constant (SemType.Enumeration "Jabberwocky" 0 8))]
      "Exists" ⟨7, 31⟩).2.2.1 rfl rfl⟩

/-- C6 counterexample: the scenario of the `error_item_redeclared` scope
test — `result` declared in the outer scope at 3:9, then redeclared
inside a nested inner scope at 5:13 — is an error: `ItemRedeclared`
referencing the earlier declaration, so redeclaration checking does not
probe the current scope only. -/
theorem nested_redeclaration_counterexample :
    declareItem
      (([] : ScopeFrame) ::
        [([("result", (⟨3, 9⟩ : Location), Item.Variable true (SemType.IntegerUnsigned 8))] :
          ScopeFrame)])
      "result" ⟨5, 13⟩ (Item.Variable true (SemType.IntegerUnsigned 8)) =
    Except.error (ScopeError.ItemRedeclared ⟨5, 13⟩ "result" (some ⟨3, 9⟩)) :=
  rfl

/-- C6 (amended): declaring a name that is already visible anywhere in
the scope chain — the current scope or any enclosing scope — fails with
`ItemRedeclared` carrying a reference to the earlier declaration's
location, so a redeclaration in a nested inner scope is also an error;
a name visible nowhere is declared in the innermost scope, where lookup
then finds it. -/
theorem redeclaration_spec (chain : List ScopeFrame) (name : String)
    (location : Location) (item : Item) :
    (∀ previousLocation previousItem,
      resolveChain chain name = some (previousLocation, previousItem) →
      declareItem chain name location item =
        Except.error (ScopeError.ItemRedeclared location name (some previousLocation))) ∧
    (resolveChain chain name = none →
      ∃ chain', declareItem chain name location item = Except.ok chain' ∧
        resolveChain chain' name = some (location, item)) := by
  constructor
  · intro previousLocation previousItem h
    simp [declareItem, h]
  · intro h
    cases chain with
    | nil =>
        exact ⟨[[(name, location, item)]], rfl, by simp [resolveChain, List.find?]⟩
    | cons frame outer =>
        refine ⟨((name, location, item) :: frame) :: outer, ?_, ?_⟩
        · simp [declareItem, h]
        · simp [resolveChain, List.find?]

/-- C9: the equality operators `==` and `!=` succeed, with a boolean
result, exactly when both operands are the same primitive type — unit
with unit, boolean with boolean, or integer with integer of matching
signedness and bitlength — and every other combination produces an
operand-mismatch error carrying the offending operand's type string. -/
theorem equality_operator_spec (v₁ v₂ : Value) :
    ((∃ result, Value.equals v₁ v₂ = Except.ok result) ↔ Value.samePrimitiveType v₁ v₂) ∧
    (Value.samePrimitiveType v₁ v₂ →
      Value.equals v₁ v₂ = Except.ok Value.Boolean ∧
      Value.not_equals v₁ v₂ = Except.ok Value.Boolean) ∧
    (¬ Value.samePrimitiveType v₁ v₂ →
      (∃ e, Value.equals v₁ v₂ = Except.error e ∧ ValueError.namesOffendingOperand v₁ v₂ e) ∧
      (∃ e, Value.not_equals v₁ v₂ = Except.error e ∧
        ValueError.namesOffendingOperand v₁ v₂ e)) := by
  cases v₁ <;> cases v₂ <;>
    simp only [Value.equals, Value.not_equals, Value.samePrimitiveType,
      ValueError.namesOffendingOperand, integerEquals, integerNotEquals] <;>
    try simp
  rename_i s₁ b₁ s₂ b₂
  by_cases h : s₁ = s₂ ∧ b₁ = b₂ <;> simp [h, ValueError.namesOffendingOperand]
  tauto

/-- C9 witness: the equality operators at concrete operands — `u8 == u8`
succeeds with a boolean result. -/
theorem equality_operator_witness :
    Value.samePrimitiveType (Value.Integer false 8) (Value.Integer false 8) ∧
    Value.equals (Value.Integer false 8) (Value.Integer false 8) =
      Except.ok Value.Boolean :=
  ⟨⟨rfl, rfl⟩,
    ((equality_operator_spec (Value.Integer false 8) (Value.Integer false 8)).2.1
      ⟨rfl, rfl⟩).1⟩

/-- Evaluation of the iteration-count arithmetic of `forLoopFromRange`:
on any folded constant range whose bound difference fits `usize`, the
result is the absolute difference of the bounds (plus one when
inclusive), the reversal flag is start > end, and the normalized start
bound is the original start bound. -/
theorem forLoopFromRange_eq (s t : Int) (sg : Bool) (bl : Nat) (inc : Bool) (loc : Location)
    (hcount : (s - t).natAbs < USIZE_LIMIT) :
    forLoopFromRange ⟨s, t, sg, bl⟩ inc loc =
      Except.ok { rangeStart := s
                  iterationsCount := (s - t).natAbs + (if inc then 1 else 0)
                  isReversed := decide (s > t)
                  indexIsSigned := sg
                  indexBitlength := bl } := by
  unfold forLoopFromRange
  by_cases h : s > t
  · have hmax : max s t = s := max_eq_left h.le
    have hmin : min s t = t := min_eq_right h.le
    simp only [h, decide_eq_true_eq, if_true, hmax, hmin]
    rw [if_pos (by constructor <;> omega)]
    cases inc <;> simp <;> omega
  · have hle : s ≤ t := not_lt.mp h
    have hmax : max s t = t := max_eq_right hle
    have hmin : min s t = s := min_eq_left hle
    simp only [h, decide_eq_true_eq, if_false, hmax, hmin]
    rw [if_pos (by constructor <;> omega)]
    cases inc <;> simp <;> omega

/-- C5: a for-loop whose bounds fold to a constant `Range` or
`RangeInclusive` lowers to a `Loop` whose pre-computed iteration count
is the absolute difference of the folded bounds — plus one when the
range is inclusive — and whose reversal flag is set exactly when the
start bound exceeds the end bound; a bounds element that is not a
constant range reports `LoopBoundsExpectedConstantRangeExpression`. -/
theorem for_loop_bounds_spec (r : RangeConstant) (loc : Location) (e : ElementE)
    (hcount : (r.start - r.stop).natAbs < USIZE_LIMIT) :
    (analyzeForBounds (ElementE.ConstantEl (ConstantE.RangeC r)) loc =
      Except.ok { rangeStart := r.start
                  iterationsCount := (r.start - r.stop).natAbs
                  isReversed := decide (r.start > r.stop)
                  indexIsSigned := r.isSigned
                  indexBitlength := r.bitlength }) ∧
    (analyzeForBounds (ElementE.ConstantEl (ConstantE.RangeInclusiveC r)) loc =
      Except.ok { rangeStart := r.start
                  iterationsCount := (r.start - r.stop).natAbs + 1
                  isReversed := decide (r.start > r.stop)
                  indexIsSigned := r.isSigned
                  indexBitlength := r.bitlength }) ∧
    (e.isConstantRange = false →
      analyzeForBounds e loc =
        Except.error (SemanticError.LoopBoundsExpectedConstantRangeExpression
          loc e.display)) := by
  obtain ⟨s, t, sg, bl⟩ := r
  refine ⟨?_, ?_, ?_⟩
  · simpa using forLoopFromRange_eq s t sg bl false loc hcount
  · simpa using forLoopFromRange_eq s t sg bl true loc hcount
  · intro hrange
    cases e with
    | ConstantEl c =>
        cases c <;> simp [analyzeForBounds] <;> simp [ElementE.isConstantRange] at hrange
    | ValueEl v => simp [analyzeForBounds]
    | TypeEl t₂ => simp [analyzeForBounds]

/-- C5 witness: the reversed range `5 .. 2` yields three iterations with
the reversal flag set, and a unit constant bound is rejected. -/
theorem for_loop_bounds_witness :
    ((5 : Int) - 2).natAbs < USIZE_LIMIT ∧
    analyzeForBounds (ElementE.ConstantEl (ConstantE.RangeC ⟨5, 2, false, 8⟩)) ⟨1, 1⟩ =
      Except.ok { rangeStart := 5
                  iterationsCount := 3
                  isReversed := true
                  indexIsSigned := false
                  indexBitlength := 8 } ∧
    analyzeForBounds (ElementE.ConstantEl ConstantE.UnitC) ⟨1, 1⟩ =
      Except.error
        (SemanticError.LoopBoundsExpectedConstantRangeExpression ⟨1, 1⟩ "()") := by
  have hcount : ((5 : Int) - 2).natAbs < USIZE_LIMIT := by norm_num [USIZE_LIMIT]
  have h := for_loop_bounds_spec ⟨5, 2, false, 8⟩ ⟨1, 1⟩
    (ElementE.ConstantEl ConstantE.UnitC) hcount
  refine ⟨hcount, ?_, ?_⟩
  · simpa using h.1
  · simpa [ElementE.display] using h.2.2 rfl

/-- C6 witness: declaring a fresh name in an empty scope chain succeeds
and the name then resolves to the new declaration. -/
theorem redeclaration_witness :
    resolveChain ([] : List ScopeFrame) "result" = none ∧
    ∃ chain', declareItem ([] : List ScopeFrame) "result" ⟨3, 9⟩
        (Item.Variable true (SemType.IntegerUnsigned 8)) = Except.ok chain' ∧
      resolveChain chain' "result" =
        some (⟨3, 9⟩, Item.Variable true (SemType.IntegerUnsigned 8)) :=
  ⟨rfl,
    (redeclaration_spec ([] : List ScopeFrame) "result" ⟨3, 9⟩
      (Item.Variable true (SemType.IntegerUnsigned 8))).2 rfl⟩

end Zinc

namespace ZincVM

/-- C10: `FileMarker` replaces the VM's whole location — the file is set
and function, line and column are reset to `none` — while
`FunctionMarker`, `LineMarker` and `ColumnMarker` each update only their
own component and leave the others unchanged; all four marker
instructions succeed and leave the evaluation stack, the data stack, the
condition stack and the constraints untouched. -/
theorem marker_instructions_spec {F : Type} (s : ExecutionState F)
    (file functionName : String) (line column : Nat) :
    (∃ s', executeFileMarker file s = Except.ok s' ∧
      s'.location.file = some file ∧ s'.location.function = none ∧
      s'.location.line = none ∧ s'.location.column = none ∧
      s'.evaluationStack = s.evaluationStack ∧ s'.dataStack = s.dataStack ∧
      s'.conditionStack = s.conditionStack ∧ s'.constraints = s.constraints) ∧
    (∃ s', executeFunctionMarker functionName s = Except.ok s' ∧
      s'.location.function = some functionName ∧ s'.location.file = s.location.file ∧
      s'.location.line = s.location.line ∧ s'.location.column = s.location.column ∧
      s'.evaluationStack = s.evaluationStack ∧ s'.dataStack = s.dataStack ∧
      s'.conditionStack = s.conditionStack ∧ s'.constraints = s.constraints) ∧
    (∃ s', executeLineMarker line s = Except.ok s' ∧
      s'.location.line = some line ∧ s'.location.file = s.location.file ∧
      s'.location.function = s.location.function ∧ s'.location.column = s.location.column ∧
      s'.evaluationStack = s.evaluationStack ∧ s'.dataStack = s.dataStack ∧
      s'.conditionStack = s.conditionStack ∧ s'.constraints = s.constraints) ∧
    (∃ s', executeColumnMarker column s = Except.ok s' ∧
      s'.location.column = some column ∧ s'.location.file = s.location.file ∧
      s'.location.function = s.location.function ∧ s'.location.line = s.location.line ∧
      s'.evaluationStack = s.evaluationStack ∧ s'.dataStack = s.dataStack ∧
      s'.conditionStack = s.conditionStack ∧ s'.constraints = s.constraints) := by
  refine ⟨⟨_, rfl, ?_⟩, ⟨_, rfl, ?_⟩, ⟨_, rfl, ?_⟩, ⟨_, rfl, ?_⟩⟩ <;>
    simp [executeFileMarker, executeFunctionMarker, executeLineMarker, executeColumnMarker]

/-- C1: the `Assert` instruction pops a value `v`, reads the top selector
of the condition stack, and enforces `v ∨ ¬selector` through an inverse
witness and the constraint `x · x⁻¹ = 1`; when the combined condition's
witness is zero — the selector active and `v` zero — the VM returns
`AssertionError` carrying the optional message instead of a constraint
failure, and under an inactive selector (or a true value) the
instruction succeeds, appending a satisfied constraint. -/
theorem assert_instruction_spec {F : Type} [Field F] [DecidableEq F] (vv sc : F)
    (hv : vv = 0 ∨ vv = 1) (hs : sc = 0 ∨ sc = 1)
    (rest : List (Cell F)) (ds : List (Option (Scalar F))) (crest : List (Scalar F))
    (cs : List (Constr F)) (loc : VMLocation) (message : Option String) :
    (sc = 1 ∧ vv = 0 →
      executeAssert message
        { evaluationStack :=
            Cell.Value { value := some vv, scalarType := ScalarType.Boolean } :: rest
          dataStack := ds
          conditionStack := { value := some sc, scalarType := ScalarType.Boolean } :: crest
          constraints := cs
          location := loc } =
        Except.error (RuntimeError.AssertionError (message.getD "<no message>"))) ∧
    (sc = 0 ∨ vv = 1 →
      executeAssert message
        { evaluationStack :=
            Cell.Value { value := some vv, scalarType := ScalarType.Boolean } :: rest
          dataStack := ds
          conditionStack := { value := some sc, scalarType := ScalarType.Boolean } :: crest
          constraints := cs
          location := loc } =
        Except.ok
          { evaluationStack := rest
            dataStack := ds
            conditionStack := { value := some sc, scalarType := ScalarType.Boolean } :: crest
            constraints := cs ++ [{ a := some 1, b := some 1, c := some 1 }]
            location := loc } ∧
      Constr.satisfied ({ a := some 1, b := some 1, c := some 1 } : Constr F)) := by
  constructor
  · rintro ⟨rfl, rfl⟩
    simp [executeAssert, pop, Cell.try_into_value, conditionTop, gadgetNot, gadgetOr,
      gadgetAssert]
  · intro h
    have hone : ∀ cs₀ : List (Constr F),
        gadgetAssert cs₀
          ({ value := some 1, scalarType := ScalarType.Boolean } : Scalar F) message =
          Except.ok (cs₀ ++ [{ a := some 1, b := some 1, c := some 1 }]) := by
      intro cs₀
      simp [gadgetAssert, one_ne_zero, inv_one]
    rcases h with rfl | rfl
    · refine ⟨?_, by simp [Constr.satisfied]⟩
      have hcombined :
          gadgetOr ({ value := some vv, scalarType := ScalarType.Boolean } : Scalar F)
              (gadgetNot { value := some (0 : F), scalarType := ScalarType.Boolean }) =
            { value := some 1, scalarType := ScalarType.Boolean } := by
        simp [gadgetNot, gadgetOr]
      simp [executeAssert, pop, Cell.try_into_value, conditionTop, hcombined, hone]
    · refine ⟨?_, by simp [Constr.satisfied]⟩
      have hcombined :
          gadgetOr ({ value := some (1 : F), scalarType := ScalarType.Boolean } : Scalar F)
              (gadgetNot { value := some sc, scalarType := ScalarType.Boolean }) =
            { value := some 1, scalarType := ScalarType.Boolean } := by
        simp [gadgetNot, gadgetOr]
      simp [executeAssert, pop, Cell.try_into_value, conditionTop, hcombined, hone]

/-- C1 witness: a false assert under an active selector returns the
assertion error, and the same assert under an inactive selector
succeeds. -/
theorem assert_instruction_witness :
    ((0 : ℚ) = 0 ∨ (0 : ℚ) = 1) ∧ ((1 : ℚ) = 0 ∨ (1 : ℚ) = 1) ∧
    executeAssert (F := ℚ) none
      { evaluationStack := [Cell.Value { value := some 0, scalarType := ScalarType.Boolean }]
        dataStack := []
        conditionStack := [{ value := some 1, scalarType := ScalarType.Boolean }]
        constraints := []
        location := { file := none, function := none, line := none, column := none } } =
      Except.error (RuntimeError.AssertionError "<no message>") ∧
    executeAssert (F := ℚ) none
      { evaluationStack := [Cell.Value { value := some 0, scalarType := ScalarType.Boolean }]
        dataStack := []
        conditionStack := [{ value := some 0, scalarType := ScalarType.Boolean }]
        constraints := []
        location := { file := none, function := none, line := none, column := none } } =
      Except.ok
        { evaluationStack := []
          dataStack := []
          conditionStack := [{ value := some 0, scalarType := ScalarType.Boolean }]
          constraints := [{ a := some 1, b := some 1, c := some 1 }]
          location := { file := none, function := none, line := none, column := none } } :=
  ⟨Or.inl rfl, Or.inr rfl,
    (assert_instruction_spec (F := ℚ) 0 1 (Or.inl rfl) (Or.inr rfl) [] [] [] []
        { file := none, function := none, line := none, column := none } none).1
      ⟨rfl, rfl⟩,
    by
      have h := ((assert_instruction_spec (F := ℚ) 0 0 (Or.inl rfl) (Or.inl rfl) [] [] [] []
        { file := none, function := none, line := none, column := none } none).2
          (Or.inl rfl)).1
      simpa using h⟩

/-- Length of the little-endian bit decomposition. -/
theorem bitsOfNat_length (n : Nat) : ∀ v : Nat, (bitsOfNat n v).length = n := by
  induction n with
  | zero => intro v; rfl
  | succ n ih => intro v; simp [bitsOfNat, ih]

/-- Every entry of the bit decomposition is a bit. -/
theorem bitsOfNat_le_one (n : Nat) : ∀ v : Nat, ∀ b ∈ bitsOfNat n v, b ≤ 1 := by
  induction n with
  | zero => intro v b hb; simp [bitsOfNat] at hb
  | succ n ih =>
      intro v b hb
      simp only [bitsOfNat, List.mem_cons] at hb
      rcases hb with rfl | hb
      · omega
      · exact ih _ b hb

/-- The bit decomposition recomposes to the value modulo `2^n`. -/
theorem recomposeBits_bitsOfNat (n : Nat) : ∀ v : Nat,
    recomposeBits (bitsOfNat n v) = v % 2 ^ n := by
  induction n with
  | zero => intro v; simp [bitsOfNat, recomposeBits, Nat.mod_one]
  | succ n ih =>
      intro v
      have h2 : (2 : Nat) ^ (n + 1) = 2 * 2 ^ n := by ring
      simp only [bitsOfNat, recomposeBits, List.foldr]
      rw [show List.foldr (fun b acc => b + 2 * acc) 0 (bitsOfNat n (v / 2)) =
            recomposeBits (bitsOfNat n (v / 2)) from rfl, ih, h2, Nat.mod_mul]

/-- C2 counterexample: the addition gadget itself does not bit-decompose
its result to the operands' declared bitlength — on two `u8`-typed
operands it returns an unchecked `Field`-typed scalar and appends
exactly one constraint, the addition constraint. -/
theorem add_gadget_counterexample :
    (gadgetAdd ([] : List (Constr ℚ))
        { value := some 1, scalarType := ScalarType.Integer false 8 }
        { value := some 2, scalarType := ScalarType.Integer false 8 }).2.scalarType =
      ScalarType.Field ∧
    ScalarType.Field ≠ ScalarType.Integer false 8 ∧
    (gadgetAdd ([] : List (Constr ℚ))
        { value := some 1, scalarType := ScalarType.Integer false 8 }
        { value := some 2, scalarType := ScalarType.Integer false 8 }).1.length = 1 :=
  ⟨rfl, by simp, rfl⟩

/-- C2 (amended): the addition gadget returns the raw sum as an
unchecked `Field`-typed scalar, and it is the instruction's
bounded-type check — after the gadget — that bit-decomposes the result
to the declared bitlength `N` with every bit constrained boolean and
the recomposition enforced, re-tagging the scalar with its bounded
type; under that check a `uN`/`iN`-typed result is range-constrained to
`N` bits, every newly recorded constraint being satisfied. -/
theorem add_range_check_spec (isSigned : Bool) (n : Nat) (cs : List (Constr ℚ)) (l r : Int)
    (hlow : 0 ≤ typeOffset (ScalarType.Integer isSigned n) (l + r))
    (hhigh : typeOffset (ScalarType.Integer isSigned n) (l + r) < 2 ^ n) :
    ∃ cs₂ result bits,
      addInstruction (ScalarType.Integer isSigned n) cs l r =
        Except.ok (cs₂, result, bits) ∧
      result.scalarType = ScalarType.Integer isSigned n ∧
      result.value = some ((l : ℚ) + (r : ℚ)) ∧
      bits.length = n ∧
      (∀ b ∈ bits, b ≤ 1) ∧
      ((recomposeBits bits : Int) = typeOffset (ScalarType.Integer isSigned n) (l + r)) ∧
      (∀ k ∈ cs₂, k ∈ cs ∨ k.satisfied) := by
  set st := ScalarType.Integer isSigned n with hst
  set offset := typeOffset st (l + r) with hoffset
  have htoNat : (offset.toNat : Int) = offset := Int.toNat_of_nonneg hlow
  have hcast : ((2 ^ n : Nat) : Int) = 2 ^ n := by push_cast; ring
  have htoNatLt : offset.toNat < 2 ^ n := by omega
  have hcheck : typeCheck st (l + r) = Except.ok (bitsOfNat n offset.toNat) := by
    rw [hst]
    simp only [typeCheck]
    rw [if_pos ⟨hlow, hhigh⟩]
  have hrecompose : recomposeBits (bitsOfNat n offset.toNat) = offset.toNat := by
    rw [recomposeBits_bitsOfNat, Nat.mod_eq_of_lt htoNatLt]
  have hmain : addInstruction st cs l r =
      Except.ok
        (cs ++ [{ a := some ((l : ℚ) + (r : ℚ)), b := some 1,
                  c := some ((l : ℚ) + (r : ℚ)) }] ++
          (bitsOfNat n offset.toNat).map
            (fun (bit : Nat) =>
              { a := some (bit : ℚ), b := some (1 - (bit : ℚ)), c := some 0 }) ++
          [{ a := some (recomposeBits (bitsOfNat n offset.toNat) : ℚ), b := some 1,
             c := some ((offset : Int) : ℚ) }],
         { value := some ((l : ℚ) + (r : ℚ)), scalarType := st },
         bitsOfNat n offset.toNat) := by
    simp only [addInstruction, gadgetAdd, hcheck]
  refine ⟨_, _, _, hmain, rfl, rfl, bitsOfNat_length n _, bitsOfNat_le_one n _, ?_, ?_⟩
  · rw [hrecompose, htoNat]
  · intro k hk
    simp only [List.mem_append] at hk
    rcases hk with ((hk | hk) | hk) | hk
    · exact Or.inl hk
    · rw [List.mem_singleton] at hk
      subst hk
      right
      simp [Constr.satisfied]
    · right
      rw [List.mem_map] at hk
      obtain ⟨b, hb, rfl⟩ := hk
      have hb1 : b ≤ 1 := bitsOfNat_le_one n _ b hb
      interval_cases b <;> simp [Constr.satisfied]
    · rw [List.mem_singleton] at hk
      subst hk
      right
      simp only [Constr.satisfied]
      rw [hrecompose, mul_one]
      exact_mod_cast htoNat

/-- Round trip of the boolean scalar encoding: converting the scalar
built from a boolean back to a boolean yields the boolean. -/
theorem to_boolean_from_boolean {F : Type} [Field F] [DecidableEq F] (b : Bool) :
    (Scalar.from_boolean (F := F) b).to_boolean = Except.ok b := by
  cases b <;> simp [Scalar.from_boolean, Scalar.to_boolean, one_ne_zero]

/-- The pop loop of the Blake2s call returns the boolean cells on top of
the stack, in pop order, leaving the rest of the stack. -/
theorem popBits_append {F : Type} [Field F] [DecidableEq F] :
    ∀ (bits : List Bool) (rest : List (Cell F)),
      popBits bits.length
        (bits.map (fun b => Cell.Value (Scalar.from_boolean b)) ++ rest) =
      Except.ok (bits, rest) := by
  intro bits
  induction bits with
  | nil => intro rest; rfl
  | cons b bs ih =>
      intro rest
      simp [popBits, pop, Cell.try_into_value, to_boolean_from_boolean, ih]

/-- Reversing the bit order within each byte preserves the number of
bits. -/
theorem reverseByteBits_length : ∀ l : List Bool, (reverseByteBits l).length = l.length := by
  intro l
  induction l using reverseByteBits.induct with
  | case1 b₀ b₁ b₂ b₃ b₄ b₅ b₆ b₇ rest ih => simp [reverseByteBits, ih]
  | case2 l h => simp [reverseByteBits]

/-- C7: a Blake2s library call pops its message bits, restores push
order, reverses the bit order within each byte before hashing and
within each byte of the digest after hashing, and pushes exactly 256
digest bits back onto the evaluation stack; constructing the call with
a message length that is not a multiple of 8 fails with a
`MalformedBytecode` invalid-arguments error. -/
theorem blake2s_call_spec {F : Type} [Field F] [DecidableEq F]
    (hash : List Bool → List Bool) (bits : List Bool) (rest : List (Cell F))
    (ds : List (Option (Scalar F))) (cstack : List (Scalar F)) (cs : List (Constr F))
    (loc : VMLocation)
    (hmod : bits.length % 8 = 0)
    (hhash : (hash (reverseByteBits bits.reverse)).length = 256) :
    Blake2s.new bits.length = Except.ok { messageLength := bits.length } ∧
    blake2sCall hash { messageLength := bits.length }
      { evaluationStack := bits.map (fun b => Cell.Value (Scalar.from_boolean b)) ++ rest
        dataStack := ds
        conditionStack := cstack
        constraints := cs
        location := loc } =
      Except.ok
        { evaluationStack :=
            ((reverseByteBits (hash (reverseByteBits bits.reverse))).map
              (fun b => Cell.Value (Scalar.from_boolean b))).reverse ++ rest
          dataStack := ds
          conditionStack := cstack
          constraints := cs
          location := loc } ∧
    (reverseByteBits (hash (reverseByteBits bits.reverse))).length = 256 ∧
    (∀ m, m % 8 ≠ 0 →
      Blake2s.new m =
        Except.error (RuntimeError.MalformedBytecode
          (MalformedBytecodeError.InvalidArguments
            ("message length for blake2s must be a multiple of 8, got " ++ toString m)))) := by
  have hdigest : (reverseByteBits (hash (reverseByteBits bits.reverse))).length = 256 := by
    rw [reverseByteBits_length, hhash]
  refine ⟨?_, ?_, hdigest, ?_⟩
  · simp [Blake2s.new, hmod]
  · simp [blake2sCall, popBits_append, hdigest]
  · intro m hm
    simp [Blake2s.new, hm]

/-- C7 witness: an 8-bit message through a stand-in 256-bit hash — the
call succeeds and pushes the byte-rewired digest bits. -/
theorem blake2s_call_witness :
    ((List.replicate 8 true).length % 8 = 0) ∧
    ((fun (_ : List Bool) => List.replicate 256 false)
        (reverseByteBits (List.replicate 8 true).reverse)).length = 256 ∧
    blake2sCall (F := ℚ) (fun _ => List.replicate 256 false)
      { messageLength := (List.replicate 8 true).length }
      { evaluationStack :=
          (List.replicate 8 true).map (fun b => Cell.Value (Scalar.from_boolean b)) ++ []
        dataStack := []
        conditionStack := []
        constraints := []
        location := { file := none, function := none, line := none, column := none } } =
      Except.ok
        { evaluationStack :=
            ((reverseByteBits (List.replicate 256 false)).map
              (fun b => Cell.Value (Scalar.from_boolean b))).reverse ++ []
          dataStack := []
          conditionStack := []
          constraints := []
          location := { file := none, function := none, line := none, column := none } } :=
  ⟨by decide, by simp only [List.length_replicate],
    (blake2s_call_spec (F := ℚ) (fun _ => List.replicate 256 false)
      (List.replicate 8 true) [] [] [] []
      { file := none, function := none, line := none, column := none }
      (by decide) (by simp only [List.length_replicate])).2.1⟩

/-- C2 witness: the checked addition `3 + 4 : u8` — the result scalar is
re-tagged `u8` and decomposed into eight boolean bits recomposing to
seven. -/
theorem add_range_check_witness :
    (0 ≤ typeOffset (ScalarType.Integer false 8) (3 + 4) ∧
      typeOffset (ScalarType.Integer false 8) (3 + 4) < 2 ^ 8) ∧
    ∃ cs₂ result bits,
      addInstruction (ScalarType.Integer false 8) [] 3 4 =
        Except.ok (cs₂, result, bits) ∧
      result.scalarType = ScalarType.Integer false 8 ∧
      result.value = some ((3 : ℚ) + (4 : ℚ)) ∧
      bits.length = 8 ∧
      (∀ b ∈ bits, b ≤ 1) ∧
      ((recomposeBits bits : Int) = typeOffset (ScalarType.Integer false 8) (3 + 4)) ∧
      (∀ k ∈ cs₂, k ∈ ([] : List (Constr ℚ)) ∨ k.satisfied) :=
  ⟨⟨by norm_num [typeOffset], by norm_num [typeOffset]⟩,
    add_range_check_spec false 8 [] 3 4 (by norm_num [typeOffset])
      (by norm_num [typeOffset])⟩

end ZincVM

namespace ZincInterp

/-- Early exit of the interpreter loop: with the while guard true along
a prefix of the iterations and boolean false at the next one, the loop
returns the state reached after exactly the prefix's iterations,
dropping every remaining iteration. -/
theorem interpLoop_early_exit {σ : Type} (g : Nat → σ → IValue) (body : Nat → σ → σ)
    (i : Nat) (idx₂ : List Nat) :
    ∀ (idx₁ : List Nat) (s : σ),
      (∀ pre j post, idx₁ = pre ++ j :: post →
        g j (applyBodies body pre s) = IValue.VBoolean true) →
      g i (applyBodies body idx₁ s) = IValue.VBoolean false →
      interpLoop (some g) body (idx₁ ++ i :: idx₂) s =
        Except.ok (applyBodies body idx₁ s) := by
  intro idx₁
  induction idx₁ with
  | nil =>
      intro s _ hfalse
      simp only [applyBodies] at hfalse
      simp [interpLoop, hfalse, applyBodies]
  | cons j rest ih =>
      intro s htrue hfalse
      have hj : g j s = IValue.VBoolean true := htrue [] j rest rfl
      have step : interpLoop (some g) body ((j :: rest) ++ i :: idx₂) s =
          interpLoop (some g) body (rest ++ i :: idx₂) (body j s) := by
        simp [interpLoop, hj]
      rw [step]
      have happly : applyBodies body (j :: rest) s = applyBodies body rest (body j s) := rfl
      rw [happly] at hfalse ⊢
      exact ih (body j s)
        (fun pre j' post hpre => htrue (j :: pre) j' post (by rw [hpre]; rfl)) hfalse

/-- Guard-type error of the interpreter loop: with the while guard true
along a prefix of the iterations and non-boolean at the next one, the
loop fails with the expected-boolean error carrying the offending
value. -/
theorem interpLoop_guard_error {σ : Type} (g : Nat → σ → IValue) (body : Nat → σ → σ)
    (i : Nat) (idx₂ : List Nat) :
    ∀ (idx₁ : List Nat) (s : σ),
      (∀ pre j post, idx₁ = pre ++ j :: post →
        g j (applyBodies body pre s) = IValue.VBoolean true) →
      (∀ b, g i (applyBodies body idx₁ s) ≠ IValue.VBoolean b) →
      interpLoop (some g) body (idx₁ ++ i :: idx₂) s =
        Except.error (IError.LoopWhileExpectedBooleanExpression
          (g i (applyBodies body idx₁ s))) := by
  intro idx₁
  induction idx₁ with
  | nil =>
      intro s _ hv
      simp only [applyBodies] at hv ⊢
      cases hgi : g i s with
      | VBoolean b => exact absurd hgi (hv b)
      | VInteger k => simp [interpLoop, hgi]
      | VUnit => simp [interpLoop, hgi]
  | cons j rest ih =>
      intro s htrue hv
      have hj : g j s = IValue.VBoolean true := htrue [] j rest rfl
      have step : interpLoop (some g) body ((j :: rest) ++ i :: idx₂) s =
          interpLoop (some g) body (rest ++ i :: idx₂) (body j s) := by
        simp [interpLoop, hj]
      rw [step]
      have happly : applyBodies body (j :: rest) s = applyBodies body rest (body j s) := rfl
      rw [happly] at hv ⊢
      exact ih (body j s)
        (fun pre j' post hpre => htrue (j :: pre) j' post (by rw [hpre]; rfl)) hv

/-- The constraint-VM loop records one trace entry per iteration: every
iteration executes. -/
theorem vmLoop_trace_length {σ : Type} (g : Nat → σ → Bool) (body : Bool → Nat → σ → σ) :
    ∀ (indices : List Nat) (sel : Bool) (st : σ),
      (vmLoop g body indices sel st).2.length = indices.length := by
  intro indices
  induction indices with
  | nil => intro sel st; rfl
  | cons i rest ih => intro sel st; simp [vmLoop, ih]

/-- Under an inactive selector the constraint-VM loop still executes
every iteration, each with a false selector: the mask persists. -/
theorem vmLoop_masked {σ : Type} (g : Nat → σ → Bool) (body : Bool → Nat → σ → σ) :
    ∀ (indices : List Nat) (st : σ),
      (vmLoop g body indices false st).2 = List.replicate indices.length false := by
  intro indices
  induction indices with
  | nil => intro st; rfl
  | cons i rest ih => intro st; simp [vmLoop, ih, List.replicate]

/-- C8: the reference interpreter evaluates a for-loop's while guard at
the start of each iteration and terminates the loop at the first
iteration whose guard is boolean false — the state after exactly the
preceding iterations is returned and all remaining iterations are
skipped — while a non-boolean guard is the expected-boolean error; the
constraint-generating VM instead executes every iteration, conjoining
the guard into the selector that masks the body's effects, so its trace
always has one entry per iteration and a false selector persists. -/
theorem loop_while_guard_spec {σ : Type} (g : Nat → σ → IValue) (body : Nat → σ → σ)
    (idx₁ idx₂ : List Nat) (i : Nat) (s : σ)
    (htrue : ∀ pre j post, idx₁ = pre ++ j :: post →
      g j (applyBodies body pre s) = IValue.VBoolean true) :
    (g i (applyBodies body idx₁ s) = IValue.VBoolean false →
      interpLoop (some g) body (idx₁ ++ i :: idx₂) s =
        Except.ok (applyBodies body idx₁ s)) ∧
    ((∀ b, g i (applyBodies body idx₁ s) ≠ IValue.VBoolean b) →
      interpLoop (some g) body (idx₁ ++ i :: idx₂) s =
        Except.error (IError.LoopWhileExpectedBooleanExpression
          (g i (applyBodies body idx₁ s)))) ∧
    (∀ (vg : Nat → σ → Bool) (vbody : Bool → Nat → σ → σ) (indices : List Nat)
        (sel : Bool) (st : σ),
      (vmLoop vg vbody indices sel st).2.length = indices.length) ∧
    (∀ (vg : Nat → σ → Bool) (vbody : Bool → Nat → σ → σ) (indices : List Nat) (st : σ),
      (vmLoop vg vbody indices false st).2 = List.replicate indices.length false) :=
  ⟨fun h => interpLoop_early_exit g body i idx₂ idx₁ s htrue h,
   fun h => interpLoop_guard_error g body i idx₂ idx₁ s htrue h,
   fun vg vbody indices sel st => vmLoop_trace_length vg vbody indices sel st,
   fun vg vbody indices st => vmLoop_masked vg vbody indices st⟩

/-- C8 witness: a loop over the indices `0, 1, 2` whose guard holds only
for index `0` — the interpreter stops after the first iteration. -/
theorem loop_while_guard_witness :
    (∀ pre j post, ([0] : List Nat) = pre ++ j :: post →
      (fun (k : Nat) (_ : Nat) => IValue.VBoolean (decide (k < 1))) j
        (applyBodies (fun _ n => n + 1) pre 10) = IValue.VBoolean true) ∧
    interpLoop (some (fun (k : Nat) (_ : Nat) => IValue.VBoolean (decide (k < 1))))
      (fun _ n => n + 1) ([0] ++ 1 :: [2]) 10 =
      Except.ok (applyBodies (fun _ n => n + 1) [0] 10) := by
  have htrue : ∀ pre j post, ([0] : List Nat) = pre ++ j :: post →
      (fun (k : Nat) (_ : Nat) => IValue.VBoolean (decide (k < 1))) j
        (applyBodies (fun _ n => n + 1) pre 10) = IValue.VBoolean true := by
    intro pre j post h
    cases pre with
    | nil =>
        injection h with h1 h2
        subst h1
        rfl
    | cons a pre₂ =>
        exfalso
        have hl := congrArg List.length h
        simp only [List.length_cons, List.length_append, List.length_nil] at hl
        omega
  exact ⟨htrue,
    (loop_while_guard_spec (fun (k : Nat) (_ : Nat) => IValue.VBoolean (decide (k < 1)))
      (fun _ n => n + 1) [0] [2] 1 10 htrue).1 rfl⟩

end ZincInterp
